import Mathlib

/-!
Shallow embedding of the file-to-catalog reconciliation engine of the
sddi-ckan-data-management-toolkit repository.

The embedded code is `src/detect_outdated_files.py` (timestamp parsing and
timezone conversion, identifier candidate generation, resource matching, the
lookup cascade `check_ckan_dataset_with_resource_timestamp`, the scanner's
extension filter `is_file_allowed`, and the per-file decision of
`main_resource_timestamp_version`) together with the catalog client surface
of `src/ckan_manager.py` (`connection_available`, `get_dataset_by_id`,
`search_datasets`, `search_resources`), modelled as a response snapshot.

Conventions of the embedding:
* Python strings are Lean `String`s; `str.lower` is modelled on its ASCII
  behaviour, which covers every string the source manipulates.
* Python dictionaries for datasets and resources become structures whose
  `.get(k, '')` defaults are baked into the field types.
* `datetime` values are wall-clock microseconds since the epoch together
  with an optional UTC offset in minutes (`None` = naive).  Comparison of
  aware datetimes compares the denoted instants, as in Python.
* `pytz.timezone('Europe/Berlin')` is modelled by the EU daylight-saving
  rule (last Sunday of March 01:00 UTC to last Sunday of October 01:00 UTC),
  which is exactly the tzdata content for the years the tool handles.
* `datetime.fromisoformat` is modelled on the ISO-8601 subset it accepts:
  `YYYY-MM-DD[<sep>HH[:MM[:SS[.f+]]]][±HH:MM]`; any other input is a parse
  failure, which the source turns into `None`.
* The Python network calls are replaced by a fixed response snapshot
  (`CKANSnapshot`): each claim quantifies over such snapshots.
* `list(set(xs))` materialises a set whose iteration order Python does not
  fix (string hashing is seeded per process); it is modelled by an explicit
  order function constrained by `validSetOrder`.
-/

/-- ASCII lower-casing of one character, the behaviour of Python's
`str.lower` on the ASCII range. -/
def lowerChar (c : Char) : Char :=
  if 'A' ≤ c ∧ c ≤ 'Z' then Char.ofNat (c.toNat + 32) else c

/-- `s.lower()` on ASCII strings. -/
def lowerStr (s : String) : String := String.mk (s.data.map lowerChar)

/-- Decides whether a character is in `[a-z0-9]`, the class kept by the
source's slug regular expressions. -/
def isLowerAlnum (c : Char) : Bool :=
  ('a' ≤ c && c ≤ 'z') || ('0' ≤ c && c ≤ '9')

/-- List prefix test with `==`, used to build the substring test. -/
def isPrefixList : List Char → List Char → Bool
  | [], _ => true
  | _ :: _, [] => false
  | a :: as, b :: bs => a == b && isPrefixList as bs

/-- Substring containment, Python's `needle in hay` on strings. -/
def containsSub : List Char → List Char → Bool
  | needle, [] => needle.isEmpty
  | needle, c :: hs => isPrefixList needle (c :: hs) || containsSub needle hs

/-- Python's `needle in hay` for strings. -/
def pyIn (needle hay : String) : Bool := containsSub needle.data hay.data

/-- Python's `s.endswith(suffix)`. -/
def endsWithStr (s suffix : String) : Bool :=
  isPrefixList suffix.data.reverse s.data.reverse

/-- `os.path.splitext` on a basename: split at the last dot, unless every
character before that dot is itself a dot (leading dots carry no
extension). -/
def splitext (filename : String) : String × String :=
  let cs := filename.data
  match ((List.range cs.length).filter (fun i => cs.getD i ' ' == '.')).getLast? with
  | none => (filename, "")
  | some i =>
    if (cs.take i).any (fun c => c != '.') then
      (String.mk (cs.take i), String.mk (cs.drop i))
    else (filename, "")

/-- Split a character list at every separator satisfying `p`, keeping
empty fields (Python `str.split(sep)` semantics). -/
def splitChars (p : Char → Bool) : List Char → List (List Char)
  | [] => [[]]
  | c :: cs =>
    let r := splitChars p cs
    if p c then [] :: r
    else
      match r with
      | [] => [[c]]
      | w :: ws => (c :: w) :: ws

/-- `os.path.basename`: the component after the last path separator (the
source runs on Windows paths, so both separators split). -/
def osBasename (p : String) : String :=
  match (splitChars (fun c => c == '/' || c == '\\') p.data).getLast? with
  | some w => String.mk w
  | none => ""

/-- Python's `s.replace(pat, rep)` for the single-character patterns the
source uses (`'Z'`, `'_'`). -/
def replaceCharStr (s : String) (pat : Char) (rep : String) : String :=
  String.mk ((s.data.map (fun c => if c == pat then rep.data else [c])).flatten)

/-- `re.sub(r'[^a-z0-9]', '', s.lower())`: the catalog-style slug. -/
def slugOf (s : String) : String :=
  String.mk ((lowerStr s).data.filter isLowerAlnum)

/-- Core loop of `re.sub(r'[^a-z0-9]+', '-', s)`: runs of characters outside
`[a-z0-9]` collapse to one hyphen. -/
def dashSubGo (inDash : Bool) : List Char → List Char
  | [] => []
  | c :: cs =>
    if isLowerAlnum c then c :: dashSubGo false cs
    else if inDash then dashSubGo true cs
    else '-' :: dashSubGo true cs

/-- Python's `s.strip('-')`. -/
def stripDashes (l : List Char) : List Char :=
  ((l.dropWhile (fun c => c == '-')).reverse.dropWhile (fun c => c == '-')).reverse

/-- `re.sub(r'[^a-z0-9]+', '-', s).strip('-')` (the source lower-cases the
argument before the call). -/
def dashSlug (s : String) : String :=
  String.mk (stripDashes (dashSubGo false s.data))

/-- `s.split('_')` (separators kept as empty fields, as in Python). -/
def splitOnChar (sep : Char) : List Char → List (List Char)
  | [] => [[]]
  | c :: cs =>
    let r := splitOnChar sep cs
    if c == sep then [] :: r
    else
      match r with
      | [] => [[c]]
      | w :: ws => (c :: w) :: ws

/-- Word accumulator behind Python's whitespace `s.split()`. -/
def wordsGo (cur : List Char) : List Char → List (List Char)
  | [] => if cur.isEmpty then [] else [cur.reverse]
  | c :: cs =>
    if c.isWhitespace then
      if cur.isEmpty then wordsGo [] cs else cur.reverse :: wordsGo [] cs
    else wordsGo (c :: cur) cs

/-- Python's argumentless `s.split()`: maximal nonempty whitespace-free
words. -/
def pySplitWs (s : String) : List String := (wordsGo [] s.data).map String.mk

/-- First-seen deduplication (the `seen = set()` loops of the source);
`seen` collects the kept elements. -/
def dedupFirstGo (seen : List String) : List String → List String
  | [] => []
  | x :: xs =>
    if seen.contains x then dedupFirstGo seen xs
    else x :: dedupFirstGo (x :: seen) xs

/-- First-seen deduplication of a word list. -/
def dedupFirst (l : List String) : List String := dedupFirstGo [] l

/-- The dedup-and-drop-empties loop closing `generate_possible_dataset_ids`:
`if id and id not in seen: seen.add(id); unique_ids.append(id)`. -/
def pyDedupGo (seen : List String) : List String → List String
  | [] => []
  | x :: xs =>
    if x ≠ "" ∧ ¬ seen.contains x then x :: pyDedupGo (x :: seen) xs
    else pyDedupGo seen xs

/-- Remove empty strings and duplicates while preserving first-seen order. -/
def pyDedup (l : List String) : List String := pyDedupGo [] l

/-- Python's `a or b` on optional strings followed by a truthiness test:
yields the first truthy (present and nonempty) string, if any. -/
def pyOrStr (a b : Option String) : Option String :=
  let x := match a with
    | some s => if s = "" then b else some s
    | none => b
  match x with
  | some s => if s = "" then none else some s
  | none => none

/-- First successful step of a loop whose body may `return` (used for the
candidate-identifier loop and the search-query loop of the cascade). -/
def firstSome : List α → (α → Option β) → Option β
  | [], _ => none
  | x :: xs, f =>
    match f x with
    | some b => some b
    | none => firstSome xs f

/-- Head of Python's stable descending sort by score: the first element
attaining the maximal key (a later element replaces the current best only
when strictly greater). -/
def pickBest : List (Nat × α) → Option (Nat × α)
  | [] => none
  | x :: xs =>
    match pickBest xs with
    | none => some x
    | some y => if y.1 > x.1 then some y else some x

/-- Head of Python's stable ascending sort by rank: the first element
attaining the minimal key. -/
def pickMin : List (Nat × α) → Option (Nat × α)
  | [] => none
  | x :: xs =>
    match pickMin xs with
    | none => some x
    | some y => if y.1 < x.1 then some y else some x

/-- A Python `datetime`: wall-clock microseconds since 1970-01-01 00:00:00
of its own calendar, plus an optional UTC offset in minutes (`none` =
naive). -/
structure PyDatetime where
  wallUs : Int
  offMin : Option Int
deriving DecidableEq

/-- Microseconds per day. -/
def usPerDay : Int := 86400000000

/-- Days since 1970-01-01 of a proleptic Gregorian date (civil-from-days
algorithm with floor division). -/
def daysFromCivil (y m d : Int) : Int :=
  let y' := y - (if m ≤ 2 then 1 else 0)
  let era := Int.fdiv y' 400
  let yoe := y' - era * 400
  let mp := Int.emod (m + 9) 12
  let doy := Int.fdiv (153 * mp + 2) 5 + d - 1
  let doe := yoe * 365 + Int.fdiv yoe 4 - Int.fdiv yoe 100 + doy
  era * 146097 + doe - 719468

/-- Gregorian year containing a given epoch day. -/
def yearOfDay (z : Int) : Int :=
  let z' := z + 719468
  let era := Int.fdiv z' 146097
  let doe := z' - era * 146097
  let yoe := Int.fdiv (doe - Int.fdiv doe 1460 + Int.fdiv doe 36524 - Int.fdiv doe 146096) 365
  let y := yoe + era * 400
  let doy := doe - (365 * yoe + Int.fdiv yoe 4 - Int.fdiv yoe 100)
  let mp := Int.fdiv (5 * doy + 2) 153
  let m := mp + (if mp < 10 then 3 else -9)
  y + (if m ≤ 2 then 1 else 0)

/-- The Sunday on or before a given epoch day (day 3, 1970-01-04, was a
Sunday). -/
def lastSundayOnOrBefore (d : Int) : Int := d - Int.emod (d - 3) 7

/-- UTC offset, in minutes, of Europe/Berlin at a UTC instant given in
microseconds: +120 between the last Sundays of March and October (01:00
UTC), +60 otherwise — the EU daylight-saving rule encoded in tzdata. -/
def berlinOffsetMin (instUs : Int) : Int :=
  let day := Int.fdiv instUs usPerDay
  let y := yearOfDay day
  let dstStart := lastSundayOnOrBefore (daysFromCivil y 3 31) * usPerDay + 3600000000
  let dstStop := lastSundayOnOrBefore (daysFromCivil y 10 31) * usPerDay + 3600000000
  if dstStart ≤ instUs ∧ instUs < dstStop then 120 else 60

/-- The UTC instant denoted by a datetime (a naive one is read at offset 0,
which is exactly how `UTC_TZ.localize` treats it in the source). -/
def dtInstant (d : PyDatetime) : Int := d.wallUs - d.offMin.getD 0 * 60000000

/-- `aware.astimezone(BERLIN_TZ)`: same instant, Berlin wall clock. -/
def astimezoneBerlin (d : PyDatetime) : PyDatetime :=
  { wallUs := dtInstant d + berlinOffsetMin (dtInstant d) * 60000000
    offMin := some (berlinOffsetMin (dtInstant d)) }

/-- `convert_utc_to_berlin` of `detect_outdated_files.py`: `None` passes
through; a naive datetime is localized as UTC; the result is the same
instant in Berlin time. -/
def convert_utc_to_berlin : Option PyDatetime → Option PyDatetime
  | none => none
  | some d =>
    let aware := match d.offMin with
      | none => { d with offMin := some (0 : Int) }
      | some _ => d
    some (astimezoneBerlin aware)

/-- Numeric value of an ASCII digit. -/
def digitVal (c : Char) : Nat := c.toNat - 48

/-- Exactly `n` leading digits, returning their value and the rest. -/
def parseNDigits (n : Nat) (cs : List Char) : Option (Nat × List Char) :=
  let pre := cs.take n
  if pre.length = n ∧ pre.all Char.isDigit then
    some (pre.foldl (fun a c => a * 10 + digitVal c) 0, cs.drop n)
  else none

/-- Consume one expected character. -/
def expectChar (c : Char) : List Char → Option (List Char)
  | [] => none
  | x :: xs => if x == c then some xs else none

/-- Gregorian leap-year test. -/
def isLeapYear (y : Int) : Bool :=
  (Int.emod y 4 == 0 && Int.emod y 100 != 0) || Int.emod y 400 == 0

/-- Length of a month. -/
def daysInMonth (y m : Int) : Int :=
  if m == 2 then (if isLeapYear y then 29 else 28)
  else if m == 4 || m == 6 || m == 9 || m == 11 then 30
  else 31

/-- Fractional seconds after the decimal point: one to six digits, scaled
to microseconds. -/
def parseFraction (cs : List Char) : Option (Nat × List Char) :=
  let ds := cs.takeWhile Char.isDigit
  if 1 ≤ ds.length ∧ ds.length ≤ 6 then
    some ((ds.foldl (fun a c => a * 10 + digitVal c) 0) * 10 ^ (6 - ds.length),
      cs.drop ds.length)
  else none

/-- The time-of-day part `HH[:MM[:SS[.f+]]]` of an ISO-8601 string,
returning hours, minutes, seconds, microseconds and the rest. -/
def parseTimePart (cs : List Char) : Option (Nat × Nat × Nat × Nat × List Char) :=
  match parseNDigits 2 cs with
  | none => none
  | some (h, r1) =>
    if h ≥ 24 then none else
    match r1 with
    | ':' :: r2 =>
      match parseNDigits 2 r2 with
      | none => none
      | some (mi, r3) =>
        if mi ≥ 60 then none else
        match r3 with
        | ':' :: r4 =>
          match parseNDigits 2 r4 with
          | none => none
          | some (sec, r5) =>
            if sec ≥ 60 then none else
            match r5 with
            | '.' :: r6 => (parseFraction r6).map (fun x => (h, mi, sec, x.1, x.2))
            | ',' :: r6 => (parseFraction r6).map (fun x => (h, mi, sec, x.1, x.2))
            | _ => some (h, mi, sec, 0, r5)
        | _ => some (h, mi, 0, 0, r3)
    | _ => some (h, 0, 0, 0, r1)

/-- `datetime.fromisoformat` on the subset the source feeds it:
`YYYY-MM-DD`, optionally a one-character separator and a time of day,
optionally a `±HH:MM` offset.  Any other shape raises in Python and is
`none` here. -/
def fromisoformat (s : String) : Option PyDatetime :=
  match parseNDigits 4 s.data with
  | none => none
  | some (y, r1) =>
  match expectChar '-' r1 with
  | none => none
  | some r2 =>
  match parseNDigits 2 r2 with
  | none => none
  | some (mo, r3) =>
  match expectChar '-' r3 with
  | none => none
  | some r4 =>
  match parseNDigits 2 r4 with
  | none => none
  | some (da, r5) =>
  if mo < 1 ∨ mo > 12 ∨ da < 1 ∨ (da : Int) > daysInMonth (y : Int) (mo : Int) then none
  else
    let dateUs := daysFromCivil (y : Int) (mo : Int) (da : Int) * usPerDay
    match r5 with
    | [] => some ⟨dateUs, none⟩
    | _ :: r6 =>
      match parseTimePart r6 with
      | none => none
      | some (h, mi, sec, us, r7) =>
        let wall := dateUs + ((h * 3600 + mi * 60 + sec : Nat) : Int) * 1000000 + (us : Int)
        match r7 with
        | [] => some ⟨wall, none⟩
        | sign :: r8 =>
          if sign == '+' ∨ sign == '-' then
            match parseNDigits 2 r8 with
            | none => none
            | some (oh, r9) =>
              match expectChar ':' r9 with
              | none => none
              | some r10 =>
                match parseNDigits 2 r10 with
                | none => none
                | some (om, r11) =>
                  if r11 = [] ∧ oh ≤ 23 ∧ om ≤ 59 then
                    some ⟨wall, some (if sign == '-' then -((oh * 60 + om : Nat) : Int)
                                      else ((oh * 60 + om : Nat) : Int))⟩
                  else none
          else none

/-- `parse_ckan_timestamp` of `detect_outdated_files.py`: `None`, the empty
string and the sentinel `'N/A'` yield `None`; otherwise `'Z'` is replaced
by `'+00:00'`, the string is parsed, and the result is converted to Berlin
time; a parse failure yields `None`. -/
def parse_ckan_timestamp (ts : Option String) : Option PyDatetime :=
  match ts with
  | none => none
  | some s =>
    if s = "" ∨ s = "N/A" then none
    else convert_utc_to_berlin (fromisoformat (replaceCharStr s 'Z' "+00:00"))

/-- A catalog resource as the source reads it: `name`, `url` and `format`
via `.get(k, '')`, timestamps via `.get(k)` (absent = `none`). -/
structure CKANResource where
  name : String
  url : String
  format : String
  last_modified : Option String
  created : Option String
deriving DecidableEq

/-- A catalog dataset as the source reads it. -/
structure CKANDataset where
  name : String
  title : String
  resources : List CKANResource
  metadata_modified : Option String
  metadata_created : Option String
deriving DecidableEq

/-- A fixed snapshot of the `CKANManager` client of `ckan_manager.py`:
the startup connection test's outcome and the (per-argument) responses of
`get_dataset_by_id`, `search_datasets` (count and result page) and
`search_resources`.  `none` models a failed call (`None` return). -/
structure CKANSnapshot where
  connection_available : Bool
  get_dataset_by_id : String → Option CKANDataset
  search_datasets : String → Option (Nat × List CKANDataset)
  search_resources : String → Option (List CKANResource)

/-- `generate_possible_dataset_ids` of `detect_outdated_files.py`: the
prioritized identifier candidates derived from a file path, closed by the
drop-empties/dedup loop. -/
def generate_possible_dataset_ids (file_path : String) : List String :=
  let filename := osBasename file_path
  let name_without_ext := (splitext filename).1
  let ckan_standardized := slugOf name_without_ext
  let ids0 := if ckan_standardized ≠ "" then [ckan_standardized] else []
  let full_name_standardized := slugOf filename
  let ids1 := ids0 ++
    (if full_name_standardized ≠ "" ∧ full_name_standardized ≠ ckan_standardized then
      [full_name_standardized] else [])
  let ids2 := ids1 ++
    (if name_without_ext ≠ "" ∧ lowerStr name_without_ext ≠ name_without_ext then
      [name_without_ext] else [])
  let simple_lowercase := lowerStr name_without_ext
  let ids3 := ids2 ++
    (if simple_lowercase ≠ "" ∧ simple_lowercase ∉ ids2 then [simple_lowercase] else [])
  let dash_version := dashSlug (lowerStr name_without_ext)
  let ids4 := ids3 ++
    (if dash_version ≠ "" ∧ dash_version ∉ ids3 then [dash_version] else [])
  pyDedup ids4

/-- The score one resource receives in `find_matching_resource`: the `elif`
chain evaluated top to bottom (exact name 100, name without extension 90,
URL contains filename 80, URL contains base name 70, format plus token 60,
lone resource 50, otherwise 0). -/
def resourceScore (resources : List CKANResource) (resource : CKANResource)
    (filename : String) : Nat :=
  let name_without_ext := (splitext filename).1
  let file_extension := String.mk (((splitext filename).2).data.dropWhile (fun c => c == '.'))
  let fileExtLower := lowerStr file_extension
  if lowerStr resource.name = lowerStr filename then 100
  else if lowerStr resource.name = lowerStr name_without_ext then 90
  else if pyIn (lowerStr filename) (lowerStr resource.url) = true then 80
  else if pyIn (lowerStr name_without_ext) (lowerStr resource.url) = true then 70
  else if lowerStr resource.format = fileExtLower ∧
      ((splitOnChar '_' (lowerStr name_without_ext).data).any
        (fun w => w.length > 2 && containsSub w (lowerStr resource.name).data)) = true then 60
  else if resources.length = 1 then 50
  else 0

/-- The timestamp string a resource offers:
`resource.get('last_modified') or resource.get('created')` under Python
truthiness, parsed if nonempty. -/
def resourceTimestamp (r : CKANResource) : Option PyDatetime :=
  parse_ckan_timestamp (pyOrStr r.last_modified r.created)

/-- `find_matching_resource` of `detect_outdated_files.py`: score every
resource, drop score-0 ones, stable-sort descending by score and take the
head (so ties keep first-encountered order); returns the winning resource
together with its own (possibly absent) parsed timestamp. -/
def find_matching_resource (resources : List CKANResource) (filename : String) :
    Option (CKANResource × Option PyDatetime) :=
  if resources = [] then none
  else
    let matching_strategies := resources.filterMap (fun r =>
      let sc := resourceScore resources r filename
      if sc > 0 then some (sc, r, resourceTimestamp r) else none)
    match pickBest matching_strategies with
    | some (_, r, t) => some (r, t)
    | none => none

/-- The `latest_resource_time` loop of the cascade: the maximal parsed
resource timestamp (strict comparison, so the first of equals is kept). -/
def latestResourceTime (resources : List CKANResource) : Option PyDatetime :=
  resources.foldl (fun acc r =>
    match resourceTimestamp r with
    | none => acc
    | some t =>
      match acc with
      | none => some t
      | some best => if dtInstant t > dtInstant best then some t else acc) none

/-- The dataset-level fallback string:
`dataset.get('metadata_modified') or dataset.get('metadata_created')`. -/
def datasetTimestamp (d : CKANDataset) : Option PyDatetime :=
  parse_ckan_timestamp (pyOrStr d.metadata_modified d.metadata_created)

/-- The body of the direct-lookup loop of
`check_ckan_dataset_with_resource_timestamp` once a dataset was found:
matched resource's timestamp, else latest resource timestamp, else dataset
metadata timestamp (the empty-resource branch goes straight to metadata);
`none` lets the loop move on to the next candidate identifier. -/
def resolveFoundDataset (dataset : CKANDataset) (filename dataset_id : String) :
    Option (PyDatetime × String) :=
  match find_matching_resource dataset.resources filename with
  | some (_, some t) => some (t, "Found dataset resource: " ++ dataset_id)
  | _ =>
    if dataset.resources ≠ [] then
      match latestResourceTime dataset.resources with
      | some t => some (t, "Found dataset (using latest resource): " ++ dataset_id)
      | none =>
        match datasetTimestamp dataset with
        | some t => some (t, "Found dataset (using dataset time): " ++ dataset_id)
        | none => none
    else
      match datasetTimestamp dataset with
      | some t => some (t, "Found empty dataset: " ++ dataset_id)
      | none => none

/-- Strict acceptance test of the search strategy: perfect slug equality
(rank 0), case-insensitive name equality (rank 1), or a title containing
the base name with at least half of the distinct base-name words present
(rank 2). -/
def validMatches (datasets : List CKANDataset) (expected_ckan_name name_without_ext : String) :
    List (Nat × CKANDataset) :=
  datasets.filterMap (fun d =>
    if d.name = expected_ckan_name then some (0, d)
    else if lowerStr d.name = lowerStr name_without_ext then some (1, d)
    else if pyIn (lowerStr name_without_ext) (lowerStr d.title) = true ∧
        name_without_ext.length > 3 then
      let title_words := pySplitWs (lowerStr d.title)
      let filename_words := dedupFirst (pySplitWs (replaceCharStr (lowerStr name_without_ext) '_' " "))
      if filename_words ≠ [] ∧
          2 * filename_words.countP (fun w => title_words.contains w) ≥ filename_words.length then
        some (2, d)
      else none
    else none)

/-- One search query of strategy 2: on a successful nonempty result page,
validate the datasets, take the best-ranked one (stable sort ascending by
rank, head), and extract a timestamp from its resources — matched resource
first, else latest resource; no dataset-metadata tier here. -/
def searchStep (mgr : CKANSnapshot) (query filename name_without_ext expected_ckan_name : String) :
    Option (PyDatetime × String) :=
  match mgr.search_datasets query with
  | none => none
  | some (count, datasets) =>
    if count > 0 ∧ datasets ≠ [] then
      match pickMin (validMatches datasets expected_ckan_name name_without_ext) with
      | none => none
      | some (_, best_dataset) =>
        match find_matching_resource best_dataset.resources filename with
        | some (_, some t) => some (t, "Found resource through search: " ++ best_dataset.name)
        | _ =>
          if best_dataset.resources ≠ [] then
            match latestResourceTime best_dataset.resources with
            | some t => some (t, "Found through search (latest resource): " ++ best_dataset.name)
            | none => none
          else none
    else none

/-- The direct-lookup phase (strategy 1) of the cascade: the candidate
identifiers in priority order, stopping at the first dataset that yields a
timestamp. -/
def directLookupResult (mgr : CKANSnapshot) (file_path : String) :
    Option (PyDatetime × String) :=
  let filename := osBasename file_path
  firstSome (generate_possible_dataset_ids file_path) (fun dataset_id =>
    match mgr.get_dataset_by_id dataset_id with
    | some dataset => resolveFoundDataset dataset filename dataset_id
    | none => none)

/-- The search queries of strategy 2 before set-materialisation: base name,
expected slug, full filename, underscore-to-space and underscore-to-hyphen
variants, plus CV-family keywords when the base name suggests them. -/
def searchQueryPool (filename name_without_ext expected_ckan_name : String) : List String :=
  let base := [name_without_ext, expected_ckan_name, filename,
    replaceCharStr name_without_ext '_' " ", replaceCharStr name_without_ext '_' "-"]
  base ++
    (if ["cv", "resume", "curriculum"].any (fun k => pyIn k (lowerStr name_without_ext)) then
      ["cv", "resume", "curriculum vitae"] else [])

/-- An admissible iteration order for Python's `list(set(xs))`: some
enumeration, without duplicates, of exactly the members of `xs`. -/
def validSetOrder (o : List String → List String) : Prop :=
  ∀ l, (o l).Nodup ∧ ∀ x, x ∈ o l ↔ x ∈ l

/-- `check_ckan_dataset_with_resource_timestamp` of
`detect_outdated_files.py`: short-circuit when the startup connection test
failed, then the direct-lookup strategy over the candidate identifiers,
then the search strategy over `list(set(...))` of the query pool (iteration
order supplied by `o`), and finally the not-found result. -/
def check_ckan_dataset_with_resource_timestamp (mgr : CKANSnapshot)
    (o : List String → List String) (file_path : String) :
    Option PyDatetime × String :=
  let filename := osBasename file_path
  let name_without_ext := (splitext filename).1
  let expected_ckan_name := slugOf name_without_ext
  if mgr.connection_available = false then (none, "CKAN service unavailable")
  else
    match directLookupResult mgr file_path with
    | some (t, msg) => (some t, msg)
    | none =>
      let search_queries :=
        o ((searchQueryPool filename name_without_ext expected_ckan_name).filter (fun q => q ≠ ""))
      match firstSome search_queries
          (fun q => searchStep mgr q filename name_without_ext expected_ckan_name) with
      | some (t, msg) => (some t, msg)
      | none => (none, "Not found (expected ID: " ++ expected_ckan_name ++ ")")

/-- The record `main_resource_timestamp_version` keeps per file: the status
string printed for the file and, when the file lands in `outdated_files`,
its sync reason (`none` = up to date, not reported). -/
structure FileOutcome where
  ckanStatus : String
  reason : Option String
deriving DecidableEq

/-- The per-file decision of `main_resource_timestamp_version`: a resolved
catalog time strictly older than the local creation time gives reason
`'Local is newer'`; an equal or newer catalog time gives no reason (file up
to date); no catalog time gives reason `'Missing in CKAN'`. -/
def processFile (mgr : CKANSnapshot) (o : List String → List String)
    (file_path : String) (localCreated : PyDatetime) : FileOutcome :=
  match check_ckan_dataset_with_resource_timestamp mgr o file_path with
  | (some ckan_time, status) =>
    if dtInstant localCreated > dtInstant ckan_time then
      { ckanStatus := status, reason := some "Local is newer" }
    else { ckanStatus := status, reason := none }
  | (none, status) => { ckanStatus := status, reason := some "Missing in CKAN" }

/-- The whole run's per-file outcomes, one entry per scanned file, from
which the report is grouped. -/
def runAll (mgr : CKANSnapshot) (o : List String → List String)
    (files : List (String × PyDatetime)) : List (String × FileOutcome) :=
  files.map (fun f => (f.1, processFile mgr o f.1 f.2))

/-- `is_file_allowed` of `detect_outdated_files.py`, with the configured
extension tuples as parameters: under the wildcard allow-list a file is
rejected exactly when it ends with a nonempty excluded extension; under an
explicit allow-list only the allowed extensions are consulted. -/
def is_file_allowed (allowed excluded : List String) (filename : String) : Bool :=
  let filename_lower := lowerStr filename
  if allowed.contains "*" then
    if excluded ≠ [] ∧ excluded.any (fun ext => ext ≠ "" && endsWithStr filename_lower ext) then
      false
    else true
  else allowed.any (fun ext => endsWithStr filename_lower ext)

/-- A string made only of characters in `[a-z0-9]`. -/
def isSlugOnly (s : String) : Bool := s.data.all isLowerAlnum

/-- Candidate list as the specification words it: slug of the base name,
slug of the full filename when it differs, the raw base name when its case
differs from lowercase, the lowercase base name, and the hyphenated slug,
with empty strings discarded and duplicates removed first-seen.  Stated
from the spec for comparison with `generate_possible_dataset_ids`. -/
def specCandidates (file_path : String) : List String :=
  let filename := osBasename file_path
  let noExt := (splitext filename).1
  let slug1 := slugOf noExt
  let slug2 := slugOf filename
  let lower4 := lowerStr noExt
  let hyphen5 := dashSlug (lowerStr noExt)
  pyDedup ([slug1] ++ (if slug2 ≠ slug1 then [slug2] else []) ++
    (if lowerStr noExt ≠ noExt then [noExt] else []) ++ [lower4] ++ [hyphen5])

/-- The timestamp-resolution order the specification prescribes for a
directly found entry: matched resource's timestamp, else the latest
resource timestamp, else the entry-level metadata timestamp.  Stated from
the spec for comparison with `resolveFoundDataset`. -/
def specTimestampResolution (d : CKANDataset) (filename : String) : Option PyDatetime :=
  match find_matching_resource d.resources filename with
  | some (_, some t) => some t
  | _ =>
    match latestResourceTime d.resources with
    | some t => some t
    | none => datasetTimestamp d

/-- The score rubric as the specification words it: evaluate every rule and
keep the highest-scoring applicable one (0 when none applies).  Stated from
the spec for comparison with `resourceScore`. -/
def specRuleScore (resources : List CKANResource) (resource : CKANResource)
    (filename : String) : Nat :=
  let name_without_ext := (splitext filename).1
  let file_extension := String.mk (((splitext filename).2).data.dropWhile (fun c => c == '.'))
  let fileExtLower := lowerStr file_extension
  max (if lowerStr resource.name = lowerStr filename then 100 else 0)
    (max (if lowerStr resource.name = lowerStr name_without_ext then 90 else 0)
      (max (if pyIn (lowerStr filename) (lowerStr resource.url) = true then 80 else 0)
        (max (if pyIn (lowerStr name_without_ext) (lowerStr resource.url) = true then 70 else 0)
          (max (if lowerStr resource.format = fileExtLower ∧
              ((splitOnChar '_' (lowerStr name_without_ext).data).any
                (fun w => w.length > 2 && containsSub w (lowerStr resource.name).data)) = true
              then 60 else 0)
            (if resources.length = 1 then 50 else 0)))))

/-- The matcher as the specification words it: the rubric score per
resource, score-0 resources excluded, overall highest score wins, ties
broken by first-encountered order.  Stated from the spec for comparison
with `find_matching_resource`. -/
def specBestMatch (resources : List CKANResource) (filename : String) :
    Option (CKANResource × Option PyDatetime) :=
  if resources = [] then none
  else
    match pickBest (resources.filterMap (fun r =>
      let sc := specRuleScore resources r filename
      if sc > 0 then some (sc, r, resourceTimestamp r) else none)) with
    | some (_, r, t) => some (r, t)
    | none => none

/-- A canonical admissible `list(set(...))` order: Mathlib's dedup. -/
def dedupOrder (l : List String) : List String := l.dedup

/-- A second admissible `list(set(...))` order: dedup, then reversed — a
different but equally legal hash-dependent enumeration. -/
def revDedupOrder (l : List String) : List String := l.dedup.reverse

/-- A snapshot whose startup connection test failed. -/
def downMgr : CKANSnapshot :=
  { connection_available := false
    get_dataset_by_id := fun _ => none
    search_datasets := fun _ => none
    search_resources := fun _ => none }

/-- A reachable catalog that knows nothing. -/
def emptyMgr : CKANSnapshot :=
  { connection_available := true
    get_dataset_by_id := fun _ => none
    search_datasets := fun _ => none
    search_resources := fun _ => none }

/-- 2024-01-01 11:00 Berlin (= 10:00 UTC), the parse of
`"2024-01-01T10:00:00Z"`. -/
def berlin1100 : PyDatetime := ⟨1704106800000000, some 60⟩

/-- A resource named like the orphan file, carrying a timestamp — what the
resource-level search endpoint would return. -/
def orphanRes : CKANResource :=
  { name := "orphan.csv", url := "", format := ""
    last_modified := some "2024-01-01T10:00:00Z", created := none }

/-- A catalog where direct lookup and dataset search fail for every query
but the resource-level search endpoint answers with a timestamped
resource. -/
def resourceOnlyMgr : CKANSnapshot :=
  { connection_available := true
    get_dataset_by_id := fun _ => none
    search_datasets := fun _ => none
    search_resources := fun _ => some [orphanRes] }

/-- Resource of the dataset found under the query `"a_b"`. -/
def resQueryA : CKANResource :=
  { name := "a_b.txt", url := "", format := ""
    last_modified := some "2024-01-01T10:00:00", created := none }

/-- Dataset found under the query `"a_b"` (accepted by case-insensitive
name equality). -/
def dsQueryA : CKANDataset :=
  { name := "a_b", title := "", resources := [resQueryA]
    metadata_modified := none, metadata_created := none }

/-- Resource of the dataset found under the query `"ab"`. -/
def resQueryB : CKANResource :=
  { name := "a_b.txt", url := "", format := ""
    last_modified := some "2024-01-01T12:00:00", created := none }

/-- Dataset found under the query `"ab"` (accepted by perfect slug
equality). -/
def dsQueryB : CKANDataset :=
  { name := "ab", title := "", resources := [resQueryB]
    metadata_modified := none, metadata_created := none }

/-- A catalog snapshot in which two different search queries of the same
file succeed with differently-timestamped datasets, while direct lookup
fails — the scenario in which the `list(set(...))` iteration order decides
the outcome. -/
def orderSensitiveMgr : CKANSnapshot :=
  { connection_available := true
    get_dataset_by_id := fun _ => none
    search_datasets := fun q =>
      if q = "a_b" then some (1, [dsQueryA])
      else if q = "ab" then some (1, [dsQueryB])
      else none
    search_resources := fun _ => none }

/-- 2024-01-01 11:30 Berlin (10:30 UTC): between the two catalog
timestamps of `orderSensitiveMgr`. -/
def localElevenThirty : PyDatetime := ⟨(19723 * 86400 + 11 * 3600 + 30 * 60) * 1000000, some 60⟩

/-- The sensor resource of the timezone scenario, stamped 10:00 UTC. -/
def sensorRes : CKANResource :=
  { name := "sensor.csv", url := "", format := ""
    last_modified := some "2024-01-01T10:00:00Z", created := none }

/-- The sensor dataset, found by direct identifier lookup. -/
def sensorDs : CKANDataset :=
  { name := "sensor", title := "", resources := [sensorRes]
    metadata_modified := none, metadata_created := none }

/-- A catalog holding exactly the sensor dataset under its slug. -/
def sensorMgr : CKANSnapshot :=
  { connection_available := true
    get_dataset_by_id := fun id => if id = "sensor" then some sensorDs else none
    search_datasets := fun _ => none
    search_resources := fun _ => none }

/-- 2024-01-01 10:30 Berlin (09:30 UTC): earlier than the sensor resource's
instant, so the local file is not newer. -/
def localTenThirty : PyDatetime := ⟨(19723 * 86400 + 10 * 3600 + 30 * 60) * 1000000, some 60⟩

/-- 2024-01-01 12:00 Berlin (11:00 UTC): later than the sensor resource's
instant, so the local file is newer. -/
def localNoon : PyDatetime := ⟨(19723 * 86400 + 12 * 3600) * 1000000, some 60⟩

/-- A resource matching `report.csv` only through its URL (rule 70). -/
def resUrl70 : CKANResource :=
  { name := "other", url := "http://example.org/report", format := ""
    last_modified := none, created := none }

/-- A resource matching `report.csv` by exact name (rule 100). -/
def resName100 : CKANResource :=
  { name := "report.csv", url := "", format := ""
    last_modified := none, created := none }

/-- A lone resource unrelated to `report.csv` by name (rule 50 only). -/
def resLone : CKANResource :=
  { name := "unrelated.pdf", url := "", format := ""
    last_modified := some "2024-01-01T10:00:00Z", created := none }

theorem validSetOrder_dedupOrder : validSetOrder dedupOrder :=
  fun l => ⟨l.nodup_dedup, fun _ => List.mem_dedup⟩

theorem validSetOrder_revDedupOrder : validSetOrder revDedupOrder :=
  fun l => ⟨List.nodup_reverse.mpr l.nodup_dedup,
    fun _ => List.mem_reverse.trans List.mem_dedup⟩

theorem isSlugOnly_slugOf (s : String) : isSlugOnly (slugOf s) = true := by
  simp only [isSlugOnly, slugOf, List.all_eq_true]
  intro c hc
  exact (List.mem_filter.mp hc).2

theorem pyDedup_cons_head (x : String) (xs : List String) (hx : x ≠ "") :
    pyDedup (x :: xs) = x :: pyDedupGo [x] xs := by
  simp [pyDedup, pyDedupGo, hx]

/-- C6 counterexample: for the filename `"###"` (no alphanumeric character
at all) both alphanumeric slugs are empty and are discarded, so the first
candidate the generator produces is the raw lowercase base name `"###"`,
which is not made of `[a-z0-9]` characters only — the claim as stated is
false for this input. -/
theorem c6_slug_first_candidate_cex :
    (generate_possible_dataset_ids "###").head? = some "###" ∧ isSlugOnly "###" = false := by
  decide

/-- C6 amended: whenever the alphanumeric slug of the base name or of the
full filename is nonempty (every realistic filename), the first candidate
produced by `generate_possible_dataset_ids` is such a slug and therefore
contains only characters in `[a-z0-9]`; only filenames with no alphanumeric
characters at all escape this. -/
theorem c6_slug_first_candidate (p : String)
    (h : slugOf ((splitext (osBasename p)).1) ≠ "" ∨ slugOf (osBasename p) ≠ "") :
    ∃ c, (generate_possible_dataset_ids p).head? = some c ∧ isSlugOnly c = true := by
  simp only [generate_possible_dataset_ids]
  by_cases hk : slugOf ((splitext (osBasename p)).1) = ""
  · rcases h with h | hf
    · exact absurd hk h
    · refine ⟨slugOf (osBasename p), ?_, isSlugOnly_slugOf _⟩
      rw [hk]
      rw [if_neg (by simp)]
      rw [if_pos (And.intro hf (by rw [hk] at hk ⊢; exact hf))]
      simp only [List.nil_append, List.append_assoc, List.singleton_append, List.cons_append]
      rw [pyDedup_cons_head _ _ hf]
      exact rfl
  · refine ⟨slugOf ((splitext (osBasename p)).1), ?_, isSlugOnly_slugOf _⟩
    rw [if_pos hk]
    simp only [List.append_assoc, List.singleton_append, List.cons_append]
    rw [pyDedup_cons_head _ _ hk]
    exact rfl

/-- C6 witness: on `"report.csv"` the hypothesis holds and the first
candidate is the pure slug `"report"`. -/
theorem c6_slug_first_candidate_witness :
    ∃ c, (generate_possible_dataset_ids "report.csv").head? = some c ∧ isSlugOnly c = true :=
  c6_slug_first_candidate "report.csv" (Or.inl (by decide))

/-- C10 counterexample: with an explicit allow-list `['.tmp']` and excluded
extensions `['.tmp']`, the file `a.tmp` ends with a configured excluded
extension and is nonetheless included — the code consults only the
allow-list in that mode, so the claim's exclusion guarantee is false. -/
theorem c10_excluded_extension_cex :
    ¬ (∀ (allowed excluded : List String) (filename : String),
        (∃ ext ∈ excluded, ext ≠ "" ∧ endsWithStr (lowerStr filename) ext = true) →
        is_file_allowed allowed excluded filename = false) := by
  intro h
  have hx : (".tmp" : String) ∈ ([".tmp"] : List String) := by decide
  have := h [".tmp"] [".tmp"] "a.tmp" ⟨".tmp", hx, by decide, by decide⟩
  exact absurd this (by decide)

/-- C10 amended: under the wildcard allow-list a file is excluded exactly
when its lowercased name ends with a nonempty configured excluded
extension; under an explicit allow-list the excluded extensions are ignored
and a file is included exactly when its lowercased name ends with an
allowed extension. -/
theorem c10_filter_characterization (allowed excluded : List String) (filename : String) :
    (allowed.contains "*" = true →
      (is_file_allowed allowed excluded filename = false ↔
        ∃ ext ∈ excluded, ext ≠ "" ∧ endsWithStr (lowerStr filename) ext = true)) ∧
    (allowed.contains "*" = false →
      (is_file_allowed allowed excluded filename = true ↔
        ∃ ext ∈ allowed, endsWithStr (lowerStr filename) ext = true)) := by
  constructor
  · intro hw
    simp only [is_file_allowed, hw, if_true]
    by_cases hc : excluded ≠ [] ∧
        excluded.any (fun ext => ext ≠ "" && endsWithStr (lowerStr filename) ext) = true
    · rw [if_pos hc]
      simp only [true_iff]
      obtain ⟨-, hany⟩ := hc
      obtain ⟨ext, hmem, hcond⟩ := List.any_eq_true.mp hany
      refine ⟨ext, hmem, ?_, ?_⟩
      · have := (Bool.and_eq_true _ _).mp hcond
        exact of_decide_eq_true this.1
      · exact ((Bool.and_eq_true _ _).mp hcond).2
    · rw [if_neg hc]
      simp only [Bool.true_eq_false, false_iff]
      rintro ⟨ext, hmem, hne, hends⟩
      apply hc
      refine ⟨by rintro rfl; exact (List.not_mem_nil ext) hmem, ?_⟩
      exact List.any_eq_true.mpr ⟨ext, hmem, (Bool.and_eq_true _ _).mpr
        ⟨decide_eq_true hne, hends⟩⟩
  · intro hw
    simp only [is_file_allowed, hw, Bool.false_eq_true, if_false]
    rw [List.any_eq_true]

/-- C10 witness: the characterization applied at the wildcard configuration
with excluded extension `.log`: the file `x.log` is rejected. -/
theorem c10_filter_characterization_witness :
    is_file_allowed ["*"] [".log"] "x.log" = false := by
  have h := (c10_filter_characterization ["*"] [".log"] "x.log").1 (by decide)
  exact h.mpr ⟨".log", by decide, by decide, by decide⟩

/-- C2 counterexample: a catalog where every direct lookup and every
dataset search fails while the resource-level search endpoint would answer
with a fully timestamped resource named exactly like the file; the cascade
nonetheless concludes not-found (`MissingRemote`), so no resource-only
fallback is performed. -/
theorem c2_resource_fallback_cex :
    ¬ (∀ (mgr : CKANSnapshot) (o : List String → List String) (p : String),
        validSetOrder o →
        (∀ id, mgr.get_dataset_by_id id = none) →
        (∀ q, mgr.search_datasets q = none) →
        (∃ rs, mgr.search_resources (osBasename p) = some rs ∧
          ∃ r ∈ rs, (resourceTimestamp r).isSome = true) →
        (check_ckan_dataset_with_resource_timestamp mgr o p).1 ≠ none) := by
  intro h
  refine h resourceOnlyMgr dedupOrder "orphan.csv" validSetOrder_dedupOrder
    (fun _ => rfl) (fun _ => rfl)
    ⟨[orphanRes], rfl, orphanRes, by decide, by decide⟩ ?_
  exact rfl

/-- C2 amended: the cascade never consults the client's `search_resources`
capability — its result is invariant under arbitrary replacement of that
endpoint, so after direct lookup and dataset search fail the file is
reported missing without any resource-only fallback. -/
theorem c2_search_resources_never_consulted (mgr : CKANSnapshot)
    (f : String → Option (List CKANResource)) (o : List String → List String) (p : String) :
    check_ckan_dataset_with_resource_timestamp { mgr with search_resources := f } o p =
      check_ckan_dataset_with_resource_timestamp mgr o p := rfl

/-- C1 counterexample: with the catalog unreachable at startup the per-file
outcome lands in the report with reason `'Missing in CKAN'` — the very
reason a genuinely missing file receives from a reachable catalog — so the
lookup-failure outcome is merged with the missing-from-catalog outcome in
the final report, contradicting the claimed distinctness. -/
theorem c1_lookupfailed_distinct_cex :
    ¬ (∀ (mgr : CKANSnapshot) (o : List String → List String) (p : String) (t : PyDatetime),
        mgr.connection_available = false →
        (processFile mgr o p t).reason ≠
          (processFile emptyMgr dedupOrder "orphan.csv" localNoon).reason) := by
  intro h
  exact h downMgr dedupOrder "orphan.csv" localNoon rfl (by decide)

/-- C1 amended: when the startup connection test failed, every file's
lookup short-circuits to the status string `'CKAN service unavailable'`
(distinct from the not-found status) with no timestamp, the run still
produces one report entry per scanned file — but in the final report the
file carries reason `'Missing in CKAN'`, merged with the missing-remote
outcome rather than kept distinct. -/
theorem c1_unreachable_short_circuit (mgr : CKANSnapshot) (o : List String → List String)
    (p : String) (t : PyDatetime) (files : List (String × PyDatetime))
    (h : mgr.connection_available = false) :
    check_ckan_dataset_with_resource_timestamp mgr o p = (none, "CKAN service unavailable") ∧
    processFile mgr o p t = ⟨"CKAN service unavailable", some "Missing in CKAN"⟩ ∧
    (runAll mgr o files).length = files.length := by
  have hc : check_ckan_dataset_with_resource_timestamp mgr o p =
      (none, "CKAN service unavailable") := by
    unfold check_ckan_dataset_with_resource_timestamp
    rw [if_pos h]
  refine ⟨hc, ?_, ?_⟩
  · unfold processFile
    rw [hc]
  · simp [runAll]

/-- C1 witness: the amended statement applied to the concrete down
catalog. -/
theorem c1_unreachable_short_circuit_witness :
    processFile downMgr dedupOrder "orphan.csv" localNoon =
      ⟨"CKAN service unavailable", some "Missing in CKAN"⟩ :=
  (c1_unreachable_short_circuit downMgr dedupOrder "orphan.csv" localNoon [] rfl).2.1

/-- C9: the per-file decision is the claimed trichotomy on the resolved
remote timestamp (no timestamp ⇒ reported missing; local instant strictly
greater ⇒ local newer; otherwise up to date, not reported), and the
concrete timezone check: `"2024-01-01T10:00:00Z"` parses to 2024-01-01
11:00 Berlin (+01:00), so a local file created 10:30 Berlin is judged not
newer. -/
theorem c9_decision_trichotomy :
    (∀ (mgr : CKANSnapshot) (o : List String → List String) (p : String) (t : PyDatetime),
      ((check_ckan_dataset_with_resource_timestamp mgr o p).1 = none →
        processFile mgr o p t =
          ⟨(check_ckan_dataset_with_resource_timestamp mgr o p).2, some "Missing in CKAN"⟩) ∧
      (∀ r, (check_ckan_dataset_with_resource_timestamp mgr o p).1 = some r →
        (dtInstant t > dtInstant r →
          processFile mgr o p t =
            ⟨(check_ckan_dataset_with_resource_timestamp mgr o p).2, some "Local is newer"⟩) ∧
        (¬ dtInstant t > dtInstant r →
          processFile mgr o p t =
            ⟨(check_ckan_dataset_with_resource_timestamp mgr o p).2, none⟩))) ∧
    parse_ckan_timestamp (some "2024-01-01T10:00:00Z") = some berlin1100 ∧
    berlin1100.wallUs = (19723 * 86400 + 11 * 3600) * 1000000 ∧
    berlin1100.offMin = some 60 ∧
    processFile sensorMgr dedupOrder "sensor.csv" localTenThirty =
      ⟨"Found dataset resource: sensor", none⟩ := by
  refine ⟨fun mgr o p t => ?_, rfl, by decide, rfl, rfl⟩
  rcases hch : check_ckan_dataset_with_resource_timestamp mgr o p with ⟨ct, st⟩
  constructor
  · intro h1
    have h1' : ct = none := h1
    subst h1'
    simp [processFile, hch]
  · intro r hr
    have hr' : ct = some r := hr
    subst hr'
    constructor
    · intro hgt
      simp [processFile, hch, hgt]
    · intro hle
      simp [processFile, hch, hle]

/-- C9 witness: the trichotomy applied at the sensor scenario with a local
file created 12:00 Berlin (11:00 UTC), newer than the 10:00 UTC resource. -/
theorem c9_decision_trichotomy_witness :
    processFile sensorMgr dedupOrder "sensor.csv" localNoon =
      ⟨"Found dataset resource: sensor", some "Local is newer"⟩ := by
  have h := ((c9_decision_trichotomy.1 sensorMgr dedupOrder "sensor.csv" localNoon).2
    berlin1100 rfl).1 (by decide)
  exact h.trans (by decide)

theorem latest_fold_spec (rs : List CKANResource) :
    ∀ (acc : Option PyDatetime) (t : PyDatetime),
      rs.foldl (fun acc r =>
        match resourceTimestamp r with
        | none => acc
        | some t =>
          match acc with
          | none => some t
          | some best => if dtInstant t > dtInstant best then some t else acc) acc = some t →
      ((acc = some t ∨ ∃ r ∈ rs, resourceTimestamp r = some t) ∧
       (∀ u, acc = some u → dtInstant u ≤ dtInstant t) ∧
       (∀ r ∈ rs, ∀ u, resourceTimestamp r = some u → dtInstant u ≤ dtInstant t)) := by
  induction rs with
  | nil =>
    intro acc t h
    simp only [List.foldl_nil] at h
    subst h
    exact ⟨Or.inl rfl, fun u hu => by injection hu with h2; rw [h2], by simp⟩
  | cons r rs ih =>
    intro acc t h
    simp only [List.foldl_cons] at h
    rcases hrt : resourceTimestamp r with _ | v
    · simp only [hrt] at h
      obtain ⟨hmem, hacc, hall⟩ := ih acc t h
      refine ⟨?_, hacc, ?_⟩
      · rcases hmem with h1 | ⟨r', hr', ht'⟩
        · exact Or.inl h1
        · exact Or.inr ⟨r', List.mem_cons_of_mem _ hr', ht'⟩
      · intro r' hr' u hu
        rcases List.mem_cons.mp hr' with rfl | hr''
        · rw [hrt] at hu; cases hu
        · exact hall r' hr'' u hu
    · rcases acc with _ | best
      · simp only [hrt] at h
        obtain ⟨hmem, hacc, hall⟩ := ih (some v) t h
        refine ⟨?_, ?_, ?_⟩
        · rcases hmem with h1 | ⟨r', hr', ht'⟩
          · exact Or.inr ⟨r, List.mem_cons_self _ _, by rw [hrt, h1]⟩
          · exact Or.inr ⟨r', List.mem_cons_of_mem _ hr', ht'⟩
        · intro u hu; cases hu
        · intro r' hr' u hu
          rcases List.mem_cons.mp hr' with rfl | hr''
          · rw [hrt] at hu
            injection hu with h2
            exact hacc u (congrArg some h2)
          · exact hall r' hr'' u hu
      · simp only [hrt] at h
        by_cases hgt : dtInstant v > dtInstant best
        · rw [if_pos hgt] at h
          obtain ⟨hmem, hacc, hall⟩ := ih (some v) t h
          refine ⟨?_, ?_, ?_⟩
          · rcases hmem with h1 | ⟨r', hr', ht'⟩
            · exact Or.inr ⟨r, List.mem_cons_self _ _, by rw [hrt, h1]⟩
            · exact Or.inr ⟨r', List.mem_cons_of_mem _ hr', ht'⟩
          · intro u hu
            injection hu with h2
            exact h2 ▸ le_trans (le_of_lt hgt) (hacc v rfl)
          · intro r' hr' u hu
            rcases List.mem_cons.mp hr' with rfl | hr''
            · rw [hrt] at hu
              injection hu with h2
              exact hacc u (congrArg some h2)
            · exact hall r' hr'' u hu
        · rw [if_neg hgt] at h
          obtain ⟨hmem, hacc, hall⟩ := ih (some best) t h
          refine ⟨?_, hacc, ?_⟩
          · rcases hmem with h1 | ⟨r', hr', ht'⟩
            · exact Or.inl h1
            · exact Or.inr ⟨r', List.mem_cons_of_mem _ hr', ht'⟩
          · intro r' hr' u hu
            rcases List.mem_cons.mp hr' with rfl | hr''
            · rw [hrt] at hu
              injection hu with h2
              exact h2 ▸ le_trans (not_lt.mp hgt) (hacc best rfl)
            · exact hall r' hr'' u hu

/-- C3: for a dataset found by direct lookup the timestamp is resolved in
the order best-matching resource (when its own timestamp parses), then
latest resource timestamp, then entry-level metadata — exactly the spec's
cascade `specTimestampResolution`; and the latest resource timestamp is a
true maximum: it is some resource's `last_modified`-else-`created`
timestamp and no resource's timestamp exceeds it. -/
theorem c3_resolution_order :
    (∀ (d : CKANDataset) (filename dataset_id : String),
      (resolveFoundDataset d filename dataset_id).map Prod.fst =
        specTimestampResolution d filename) ∧
    (∀ (rs : List CKANResource) (t : PyDatetime),
      latestResourceTime rs = some t →
      (∃ r ∈ rs, resourceTimestamp r = some t) ∧
      ∀ r ∈ rs, ∀ u, resourceTimestamp r = some u → dtInstant u ≤ dtInstant t) := by
  constructor
  · intro d filename dataset_id
    unfold resolveFoundDataset specTimestampResolution
    rcases hf : find_matching_resource d.resources filename with _ | ⟨r, _ | t⟩
    · simp only [hf]
      by_cases hr : d.resources = []
      · have hl : latestResourceTime d.resources = none := by rw [hr]; rfl
        rw [hl]
        simp only [hr, ne_eq, not_true_eq_false, if_false]
        cases hm : datasetTimestamp d <;> simp [hm]
      · simp only [hr, ne_eq, not_false_eq_true, if_true]
        cases hl : latestResourceTime d.resources
        · simp only [hl]
          cases hm : datasetTimestamp d <;> simp [hm]
        · simp [hl]
    · simp only [hf]
      by_cases hr : d.resources = []
      · rw [hr] at hf
        exact absurd hf (by simp [find_matching_resource])
      · simp only [hr, ne_eq, not_false_eq_true, if_true]
        cases hl : latestResourceTime d.resources
        · simp only [hl]
          cases hm : datasetTimestamp d <;> simp [hm]
        · simp [hl]
    · simp [hf]
  · intro rs t h
    have := latest_fold_spec rs none t h
    obtain ⟨hmem, -, hall⟩ := this
    rcases hmem with h1 | h2
    · cases h1
    · exact ⟨h2, hall⟩

/-- C3 witness: the maximum property applied to the singleton sensor
resource list, whose latest timestamp is 11:00 Berlin. -/
theorem c3_resolution_order_witness :
    ∃ r ∈ [sensorRes], resourceTimestamp r = some berlin1100 :=
  (c3_resolution_order.2 [sensorRes] berlin1100 rfl).1

/-- C4 counterexample: with the fixed snapshot `orderSensitiveMgr` and the
fixed file `a_b.txt`, two admissible iteration orders of the materialised
search-query set lead to different statuses (the 10:00 UTC dataset makes
the 10:30 UTC local file `Local is newer`; the 12:00 UTC dataset makes it
up to date) — so reconciliation is not determined by the file inventory and
catalog snapshot alone. -/
theorem c4_set_order_cex :
    ¬ (∀ (mgr : CKANSnapshot) (o1 o2 : List String → List String) (p : String) (t : PyDatetime),
        validSetOrder o1 → validSetOrder o2 →
        processFile mgr o1 p t = processFile mgr o2 p t) := by
  intro h
  have := h orderSensitiveMgr dedupOrder revDedupOrder "a_b.txt" localElevenThirty
    validSetOrder_dedupOrder validSetOrder_revDedupOrder
  exact absurd this (by decide)

/-- C4 amended: reconciliation is deterministic once the iteration order of
the deduplicated search-query set is fixed (the matcher itself, a pure
function, never depends on it); in particular whenever the catalog is down
or the direct-lookup phase settles the file, the outcome is independent of
that order.  Only runs that fall through to the search strategy can differ,
and then only across different set orders, as the counterexample shows. -/
theorem c4_determinism_given_order (mgr : CKANSnapshot)
    (o1 o2 : List String → List String) (p : String) (t : PyDatetime)
    (h : mgr.connection_available = false ∨ directLookupResult mgr p ≠ none) :
    processFile mgr o1 p t = processFile mgr o2 p t := by
  have hc : check_ckan_dataset_with_resource_timestamp mgr o1 p =
      check_ckan_dataset_with_resource_timestamp mgr o2 p := by
    unfold check_ckan_dataset_with_resource_timestamp
    rcases h with h | h
    · simp [h]
    · by_cases hcav : mgr.connection_available = false
      · simp [hcav]
      · simp only [hcav, Bool.false_eq_true, if_false]
        rcases hd : directLookupResult mgr p with _ | ⟨t', msg⟩
        · exact absurd hd h
        · simp [hd]
  unfold processFile
  rw [hc]

/-- C4 witness: a direct-lookup hit — the sensor scenario — yields the same
outcome under both set orders. -/
theorem c4_determinism_given_order_witness :
    processFile sensorMgr dedupOrder "sensor.csv" localNoon =
      processFile sensorMgr revDedupOrder "sensor.csv" localNoon :=
  c4_determinism_given_order sensorMgr dedupOrder revDedupOrder "sensor.csv" localNoon
    (Or.inr (by decide))

theorem dtInstant_astimezoneBerlin (x : PyDatetime) :
    dtInstant (astimezoneBerlin x) = dtInstant x := by
  simp [dtInstant, astimezoneBerlin]

/-- C8: the Timestamp Normalizer is total and fails softly — null, empty
and `'N/A'` inputs give null; an unparseable string gives null; a parsed
result is the input instant (a trailing `Z` having been turned into the
`+00:00` offset, and a naive parse read as UTC) re-expressed in the Berlin
timezone; the concrete conversion of `"2024-01-01T10:00:00Z"` is 11:00
Berlin; and the caller treats a null timestamp as a missing-file report
entry, never a failure. -/
theorem c8_normalizer_soft :
    parse_ckan_timestamp none = none ∧
    parse_ckan_timestamp (some "") = none ∧
    parse_ckan_timestamp (some "N/A") = none ∧
    (∀ s, fromisoformat (replaceCharStr s 'Z' "+00:00") = none →
      parse_ckan_timestamp (some s) = none) ∧
    (∀ s d, parse_ckan_timestamp (some s) = some d →
      d.offMin = some (berlinOffsetMin (dtInstant d)) ∧
      ∀ d0, fromisoformat (replaceCharStr s 'Z' "+00:00") = some d0 →
        dtInstant d = dtInstant d0) ∧
    parse_ckan_timestamp (some "2024-01-01T10:00:00Z") = some berlin1100 ∧
    (∀ (mgr : CKANSnapshot) (o : List String → List String) (p : String) (t : PyDatetime),
      (check_ckan_dataset_with_resource_timestamp mgr o p).1 = none →
      (processFile mgr o p t).reason = some "Missing in CKAN") := by
  refine ⟨rfl, rfl, rfl, ?_, ?_, rfl, ?_⟩
  · intro s h
    show (if s = "" ∨ s = "N/A" then none
      else convert_utc_to_berlin (fromisoformat (replaceCharStr s 'Z' "+00:00"))) = none
    by_cases hg : s = "" ∨ s = "N/A"
    · rw [if_pos hg]
    · rw [if_neg hg, h]
      rfl
  · intro s d h
    replace h : (if s = "" ∨ s = "N/A" then none
      else convert_utc_to_berlin (fromisoformat (replaceCharStr s 'Z' "+00:00"))) = some d := h
    by_cases hg : s = "" ∨ s = "N/A"
    · rw [if_pos hg] at h
      cases h
    · rw [if_neg hg] at h
      rcases hfi : fromisoformat (replaceCharStr s 'Z' "+00:00") with _ | d0
      · rw [hfi] at h
        cases h
      · rw [hfi] at h
        have haw : ∀ y : PyDatetime,
            (match y.offMin with
              | none => { y with offMin := some (0 : Int) }
              | some _ => y) = { wallUs := y.wallUs, offMin := some (y.offMin.getD 0) } := by
          intro y
          rcases y with ⟨w, _ | om⟩ <;> rfl
        simp only [convert_utc_to_berlin, haw] at h
        injection h with h2
        constructor
        · rw [← h2, dtInstant_astimezoneBerlin]
          rfl
        · intro d0' hd0'
          have h3 : d0 = d0' := Option.some.inj hd0'
          rw [← h3, ← h2, dtInstant_astimezoneBerlin]
          simp [dtInstant]
  · intro mgr o p t h
    rcases hch : check_ckan_dataset_with_resource_timestamp mgr o p with ⟨ct, st⟩
    rw [hch] at h
    have h1 : ct = none := h
    subst h1
    simp [processFile, hch]

/-- C8 witness: soft failure applied to a malformed timestamp string. -/
theorem c8_normalizer_soft_witness :
    parse_ckan_timestamp (some "not a timestamp") = none :=
  c8_normalizer_soft.2.2.2.1 "not a timestamp" rfl

theorem elif_chain_eq_max (c1 c2 c3 c4 c5 c6 : Prop) [Decidable c1] [Decidable c2]
    [Decidable c3] [Decidable c4] [Decidable c5] [Decidable c6] :
    (if c1 then 100 else if c2 then 90 else if c3 then 80 else if c4 then 70
      else if c5 then 60 else if c6 then 50 else 0) =
    max (if c1 then 100 else 0) (max (if c2 then 90 else 0) (max (if c3 then 80 else 0)
      (max (if c4 then 70 else 0) (max (if c5 then 60 else 0) (if c6 then 50 else 0))))) := by
  by_cases h1 : c1 <;> by_cases h2 : c2 <;> by_cases h3 : c3 <;> by_cases h4 : c4 <;>
  by_cases h5 : c5 <;> by_cases h6 : c6 <;> simp [h1, h2, h3, h4, h5, h6]

theorem resourceScore_eq_spec (resources : List CKANResource) (resource : CKANResource)
    (filename : String) :
    resourceScore resources resource filename = specRuleScore resources resource filename := by
  simp only [resourceScore, specRuleScore]
  exact elif_chain_eq_max _ _ _ _ _ _

theorem pickBest_eq_none {α : Type} (l : List (Nat × α)) : pickBest l = none ↔ l = [] := by
  cases l with
  | nil => simp [pickBest]
  | cons x xs =>
    simp only [pickBest]
    rcases h : pickBest xs with _ | y
    · simp
    · by_cases hgt : y.1 > x.1 <;> simp [hgt]

theorem pickBest_first_max {α : Type} :
    ∀ (l : List (Nat × α)) (m : Nat × α), pickBest l = some m →
      ∃ pre post, l = pre ++ m :: post ∧ (∀ x ∈ pre, x.1 < m.1) ∧ ∀ x ∈ l, x.1 ≤ m.1 := by
  intro l
  induction l with
  | nil => intro m h; cases h
  | cons x xs ih =>
    intro m h
    simp only [pickBest] at h
    rcases hp : pickBest xs with _ | y
    · rw [hp] at h
      replace h : some x = some m := h
      injection h with h2
      subst h2
      have hxs : xs = [] := (pickBest_eq_none xs).mp hp
      subst hxs
      exact ⟨[], [], rfl, by simp, by simp⟩
    · rw [hp] at h
      replace h : (if y.1 > x.1 then some y else some x) = some m := h
      by_cases hgt : y.1 > x.1
      · rw [if_pos hgt] at h
        injection h with h2
        subst h2
        obtain ⟨pre, post, heq, hpre, hall⟩ := ih y hp
        refine ⟨x :: pre, post, by rw [heq]; rfl, ?_, ?_⟩
        · intro z hz
          rcases List.mem_cons.mp hz with rfl | hz'
          · exact hgt
          · exact hpre z hz'
        · intro z hz
          rcases List.mem_cons.mp hz with rfl | hz'
          · exact le_of_lt hgt
          · exact hall z hz'
      · rw [if_neg hgt] at h
        injection h with h2
        subst h2
        obtain ⟨-, -, -, -, hall⟩ := ih y hp
        refine ⟨[], xs, rfl, by simp, ?_⟩
        intro z hz
        rcases List.mem_cons.mp hz with rfl | hz'
        · exact le_refl _
        · exact le_trans (hall z hz') (not_lt.mp hgt)

theorem filterMap_nil_iff {α β : Type} (f : α → Option β) :
    ∀ L : List α, L.filterMap f = [] ↔ ∀ a ∈ L, f a = none := by
  intro L
  induction L with
  | nil => simp
  | cons a L ih =>
    rcases hfa : f a with _ | c <;> simp [List.filterMap_cons, hfa, ih]

theorem filterMap_congr_on {α β : Type} (f g : α → Option β) :
    ∀ L : List α, (∀ a ∈ L, f a = g a) → L.filterMap f = L.filterMap g := by
  intro L
  induction L with
  | nil => intro _; rfl
  | cons a L ih =>
    intro h
    simp only [List.filterMap_cons, h a (List.mem_cons_self _ _)]
    cases g a <;> simp [ih (fun x hx => h x (List.mem_cons_of_mem _ hx))]

theorem filterMap_eq_append_cons {α β : Type} (f : α → Option β) :
    ∀ (L : List α) (A : List β) (b : β) (B : List β),
      L.filterMap f = A ++ b :: B →
      ∃ L1 x L2, L = L1 ++ x :: L2 ∧ f x = some b ∧
        L1.filterMap f = A ∧ L2.filterMap f = B := by
  intro L
  induction L with
  | nil =>
    intro A b B h
    simp at h
  | cons a L ih =>
    intro A b B h
    rcases hfa : f a with _ | c
    · simp only [List.filterMap_cons, hfa] at h
      obtain ⟨L1, x, L2, heq, hfx, h1, h2⟩ := ih A b B h
      exact ⟨a :: L1, x, L2, by rw [List.cons_append, heq], hfx,
        by simp [List.filterMap_cons, hfa, h1], h2⟩
    · simp only [List.filterMap_cons, hfa] at h
      cases A with
      | nil =>
        simp only [List.nil_append, List.cons.injEq] at h
        obtain ⟨h1, h2⟩ := h
        exact ⟨[], a, L, rfl, by rw [hfa, h1], rfl, h2⟩
      | cons a' A' =>
        simp only [List.cons_append, List.cons.injEq] at h
        obtain ⟨h1, h2⟩ := h
        obtain ⟨L1, x, L2, heq, hfx, hA, hB⟩ := ih A' b B h2
        exact ⟨a :: L1, x, L2, by rw [List.cons_append, heq], hfx,
          by simp [List.filterMap_cons, hfa, hA, h1], hB⟩

theorem find_matching_resource_none_iff (resources : List CKANResource) (filename : String) :
    find_matching_resource resources filename = none ↔
      ∀ r ∈ resources, resourceScore resources r filename = 0 := by
  simp only [find_matching_resource]
  by_cases hr : resources = []
  · subst hr
    simp
  · rw [if_neg hr]
    rcases hp : pickBest (resources.filterMap fun r =>
        if resourceScore resources r filename > 0
        then some (resourceScore resources r filename, r, resourceTimestamp r) else none)
      with _ | m
    · constructor
      · intro _
        have hnil := (pickBest_eq_none _).mp hp
        intro r hrm
        have hfr := (filterMap_nil_iff _ resources).mp hnil r hrm
        by_cases hpos : resourceScore resources r filename > 0
        · rw [if_pos hpos] at hfr
          cases hfr
        · omega
      · intro _
        rfl
    · rcases m with ⟨sc, r', t'⟩
      constructor
      · intro hc
        replace hc : some (r', t') = none := hc
        cases hc
      · intro hall
        exfalso
        obtain ⟨pre, post, heq, -, -⟩ := pickBest_first_max _ _ hp
        obtain ⟨L1, x, L2, heqL, hfx, -, -⟩ :=
          filterMap_eq_append_cons _ resources pre (sc, r', t') post heq
        by_cases hpos : resourceScore resources x filename > 0
        · have h0 := hall x (by rw [heqL]; exact List.mem_append_right _ (List.mem_cons_self _ _))
          omega
        · rw [if_neg hpos] at hfx
          cases hfx

theorem find_first_max (resources : List CKANResource) (filename : String)
    (r : CKANResource) (t : Option PyDatetime)
    (h : find_matching_resource resources filename = some (r, t)) :
    t = resourceTimestamp r ∧ 0 < resourceScore resources r filename ∧
    (∃ pre post, resources = pre ++ r :: post ∧
      ∀ x ∈ pre, resourceScore resources x filename < resourceScore resources r filename) ∧
    (∀ x ∈ resources, resourceScore resources x filename ≤ resourceScore resources r filename) := by
  simp only [find_matching_resource] at h
  by_cases hr : resources = []
  · rw [if_pos hr] at h
    cases h
  · rw [if_neg hr] at h
    rcases hp : pickBest (resources.filterMap fun r =>
        if resourceScore resources r filename > 0
        then some (resourceScore resources r filename, r, resourceTimestamp r) else none)
      with _ | m
    · rw [hp] at h
      replace h : (none : Option (CKANResource × Option PyDatetime)) = some (r, t) := h
      cases h
    · rw [hp] at h
      rcases m with ⟨sc, r', t'⟩
      replace h : some (r', t') = some (r, t) := h
      injection h with h2
      injection h2 with hr2 ht2
      subst hr2
      subst ht2
      obtain ⟨pre, post, heq, hpre, hall⟩ := pickBest_first_max _ _ hp
      obtain ⟨L1, x, L2, heqL, hfx, hL1, -⟩ :=
        filterMap_eq_append_cons _ resources pre (sc, r', t') post heq
      by_cases hpos : resourceScore resources x filename > 0
      case neg =>
        rw [if_neg hpos] at hfx
        cases hfx
      rw [if_pos hpos] at hfx
      injection hfx with hfx2
      injection hfx2 with hsc hfx3
      injection hfx3 with hxr hts
      subst hxr
      subst hsc
      subst hts
      refine ⟨rfl, hpos, ⟨L1, L2, heqL, ?_⟩, ?_⟩
      · intro z hz
        by_cases hposz : resourceScore resources z filename > 0
        · have hmem : (resourceScore resources z filename, z, resourceTimestamp z) ∈ pre := by
            rw [← hL1]
            exact List.mem_filterMap.mpr ⟨z, hz, by rw [if_pos hposz]⟩
          exact hpre _ hmem
        · omega
      · intro z hz
        by_cases hposz : resourceScore resources z filename > 0
        · have hmem : (resourceScore resources z filename, z, resourceTimestamp z) ∈
              resources.filterMap (fun r =>
                if resourceScore resources r filename > 0
                then some (resourceScore resources r filename, r, resourceTimestamp r)
                else none) :=
            List.mem_filterMap.mpr ⟨z, hz, by rw [if_pos hposz]⟩
          exact hall _ hmem
        · omega

theorem find_eq_specBestMatch (resources : List CKANResource) (filename : String) :
    find_matching_resource resources filename = specBestMatch resources filename := by
  simp only [find_matching_resource, specBestMatch]
  have hcong : (resources.filterMap fun r =>
      if resourceScore resources r filename > 0
      then some (resourceScore resources r filename, r, resourceTimestamp r) else none) =
      (resources.filterMap fun r =>
      if specRuleScore resources r filename > 0
      then some (specRuleScore resources r filename, r, resourceTimestamp r) else none) := by
    apply filterMap_congr_on
    intro a _
    rw [resourceScore_eq_spec]
  rw [hcong]

/-- C5: per resource the code's `elif` chain assigns exactly the
highest-scoring applicable rubric rule (`specRuleScore`); the matcher
equals the spec's matcher (score-0 resources excluded, overall highest
score wins, ties to the first encountered): it returns `none` exactly when
every resource scores 0, and a returned resource carries its own timestamp,
scores positive, beats every earlier resource strictly and every resource
weakly; concretely, a rule-100 resource outranks an earlier rule-70
resource of the same entry, and a lone unrelated resource is returned with
score 50. -/
theorem c5_matcher_rubric :
    (∀ (resources : List CKANResource) (r : CKANResource) (filename : String),
      resourceScore resources r filename = specRuleScore resources r filename) ∧
    (∀ (resources : List CKANResource) (filename : String),
      find_matching_resource resources filename = specBestMatch resources filename) ∧
    (∀ (resources : List CKANResource) (filename : String),
      (find_matching_resource resources filename = none ↔
        ∀ r ∈ resources, resourceScore resources r filename = 0)) ∧
    (∀ (resources : List CKANResource) (filename : String) (r : CKANResource)
        (t : Option PyDatetime),
      find_matching_resource resources filename = some (r, t) →
      t = resourceTimestamp r ∧ 0 < resourceScore resources r filename ∧
      (∃ pre post, resources = pre ++ r :: post ∧
        ∀ x ∈ pre, resourceScore resources x filename < resourceScore resources r filename) ∧
      (∀ x ∈ resources, resourceScore resources x filename ≤
        resourceScore resources r filename)) ∧
    resourceScore [resUrl70, resName100] resUrl70 "report.csv" = 70 ∧
    resourceScore [resUrl70, resName100] resName100 "report.csv" = 100 ∧
    find_matching_resource [resUrl70, resName100] "report.csv" = some (resName100, none) ∧
    resourceScore [resLone] resLone "report.csv" = 50 ∧
    find_matching_resource [resLone] "report.csv" = some (resLone, some berlin1100) :=
  ⟨resourceScore_eq_spec, find_eq_specBestMatch, find_matching_resource_none_iff,
    find_first_max, by decide, by decide, by decide, by decide, by decide⟩

/-- C5 witness: the winner characterization applied to the lone-resource
instance: the returned timestamp is the resource's own and its score is
positive. -/
theorem c5_matcher_rubric_witness :
    (some berlin1100 : Option PyDatetime) = resourceTimestamp resLone ∧
    0 < resourceScore [resLone] resLone "report.csv" := by
  have h := c5_matcher_rubric.2.2.2.1 [resLone] "report.csv" resLone (some berlin1100) (by decide)
  exact ⟨h.1, h.2.1⟩

theorem pyDedupGo_insert (y : String) :
    ∀ (xs seen zs : List String), (y = "" ∨ y ∈ xs ∨ y ∈ seen) →
      pyDedupGo seen (xs ++ y :: zs) = pyDedupGo seen (xs ++ zs) := by
  intro xs
  induction xs with
  | nil =>
    intro seen zs hy
    simp only [List.nil_append]
    rcases hy with rfl | hy | hy
    · simp [pyDedupGo]
    · cases hy
    · simp [pyDedupGo, hy]
  | cons a xs ih =>
    intro seen zs hy
    simp only [List.cons_append, pyDedupGo]
    by_cases ha : a ≠ "" ∧ ¬ seen.contains a
    · rw [if_pos ha, if_pos ha]
      refine congrArg _ (ih (a :: seen) zs ?_)
      rcases hy with h | h | h
      · exact Or.inl h
      · rcases List.mem_cons.mp h with rfl | h2
        · exact Or.inr (Or.inr (List.mem_cons_self _ _))
        · exact Or.inr (Or.inl h2)
      · exact Or.inr (Or.inr (List.mem_cons_of_mem _ h))
    · rw [if_neg ha, if_neg ha]
      apply ih seen zs
      rcases hy with h | h | h
      · exact Or.inl h
      · rcases List.mem_cons.mp h with rfl | h2
        · rcases not_and_or.mp ha with h3 | h3
          · exact Or.inl (not_not.mp (by simpa using h3))
          · exact Or.inr (Or.inr (List.elem_iff.mp (of_not_not h3)))
        · exact Or.inr (Or.inl h2)
      · exact Or.inr (Or.inr h)

theorem pyDedup_seg_right (c : Prop) [Decidable c] (xs : List String) (y : String)
    (zs : List String) (h : ¬ c → y = "" ∨ y ∈ xs) :
    pyDedup (xs ++ ((if c then [y] else []) ++ zs)) = pyDedup (xs ++ (y :: zs)) := by
  by_cases hc : c
  · rw [if_pos hc]
    rfl
  · rw [if_neg hc, List.nil_append]
    refine (pyDedupGo_insert y xs [] zs ?_).symm
    rcases h hc with h1 | h1
    · exact Or.inl h1
    · exact Or.inr (Or.inl h1)

theorem pyDedup_keep_last (xs : List String) (y : String) :
    pyDedup (xs ++ (if y ≠ "" ∧ y ∉ xs then [y] else [])) = pyDedup (xs ++ [y]) := by
  by_cases hc : y ≠ "" ∧ y ∉ xs
  · rw [if_pos hc]
  · rw [if_neg hc, List.append_nil]
    have h1 : y = "" ∨ y ∈ xs := by
      by_cases hy : y = ""
      · exact Or.inl hy
      · right
        by_contra hm
        exact hc ⟨hy, hm⟩
    have h2 := pyDedupGo_insert y xs [] []
      (by rcases h1 with h | h; exact Or.inl h; exact Or.inr (Or.inl h))
    rw [List.append_nil] at h2
    exact h2.symm

theorem pyDedup_keep_mid (xs zs : List String) (y : String) :
    pyDedup ((xs ++ (if y ≠ "" ∧ y ∉ xs then [y] else [])) ++ zs) =
      pyDedup ((xs ++ [y]) ++ zs) := by
  by_cases hc : y ≠ "" ∧ y ∉ xs
  · rw [if_pos hc]
  · rw [if_neg hc, List.append_nil]
    conv_rhs => rw [List.append_assoc]
    have h1 : y = "" ∨ y ∈ xs := by
      by_cases hy : y = ""
      · exact Or.inl hy
      · right
        by_contra hm
        exact hc ⟨hy, hm⟩
    exact (pyDedupGo_insert y xs [] zs
      (by rcases h1 with h | h; exact Or.inl h; exact Or.inr (Or.inl h))).symm

theorem pyDedup_keep_head (y : String) (zs : List String) :
    pyDedup ((if y ≠ "" then [y] else []) ++ zs) = pyDedup (y :: zs) := by
  by_cases hc : y ≠ ""
  · rw [if_pos hc]
    rfl
  · rw [if_neg hc, List.nil_append]
    have hy : y = "" := of_not_not hc
    subst hy
    simp [pyDedup, pyDedupGo]

/-- C7: the identifier candidate generator returns exactly the spec's list:
slug of the base name, slug of the full filename when it differs, the raw
base name when its case differs from lowercase, the lowercase base name,
and the hyphenated slug, with empty strings discarded and duplicates
removed while preserving first-seen order. -/
theorem c7_candidate_generator_spec (p : String) :
    generate_possible_dataset_ids p = specCandidates p := by
  simp only [generate_possible_dataset_ids, specCandidates]
  rw [pyDedup_keep_last, pyDedup_keep_mid]
  simp only [List.append_assoc]
  have h2 : ¬ (slugOf (osBasename p) ≠ "" ∧
        slugOf (osBasename p) ≠ slugOf ((splitext (osBasename p)).1)) →
      slugOf (osBasename p) = "" ∨ slugOf (osBasename p) ∈
        (if slugOf ((splitext (osBasename p)).1) ≠ ""
          then [slugOf ((splitext (osBasename p)).1)] else []) := by
    intro hc
    by_cases hf : slugOf (osBasename p) = ""
    · exact Or.inl hf
    · right
      have hfk : slugOf (osBasename p) = slugOf ((splitext (osBasename p)).1) := by
        by_contra h2x
        exact hc ⟨hf, h2x⟩
      have hk : slugOf ((splitext (osBasename p)).1) ≠ "" := by
        rw [← hfk]
        exact hf
      rw [if_pos hk, hfk]
      exact List.mem_singleton.mpr rfl
  rw [pyDedup_seg_right _ _ _ _ h2]
  have h2s : ¬ (slugOf (osBasename p) ≠ slugOf ((splitext (osBasename p)).1)) →
      slugOf (osBasename p) = "" ∨
        slugOf (osBasename p) ∈ [slugOf ((splitext (osBasename p)).1)] := by
    intro hc
    right
    rw [of_not_not hc]
    exact List.mem_singleton.mpr rfl
  rw [pyDedup_seg_right _ _ _ _ h2s]
  rw [pyDedup_keep_head]
  have hiff : ((splitext (osBasename p)).1 ≠ "" ∧
        lowerStr ((splitext (osBasename p)).1) ≠ (splitext (osBasename p)).1) ↔
      lowerStr ((splitext (osBasename p)).1) ≠ (splitext (osBasename p)).1 := by
    constructor
    · rintro ⟨-, h⟩
      exact h
    · intro h
      refine ⟨?_, h⟩
      intro he
      apply h
      rw [he]
      rfl
  rw [if_congr hiff rfl rfl]
  rfl
